import Mathlib

/-!
Shallow embedding of the admin-auth-service GraphQL resolvers
(`src/graphql/resolvers.js`) and the admin login service
(`src/services/auth.service.js`) over the relational schema declared by the
Prisma migrations (`Interview_astrologerId_roundNumber_key`,
`RolePermission_roleId_permissionId_key`, `User_mobile_key`,
`Permission_name_key`, `Role_name_key`, ...).

The database is a record of row lists.  Every Prisma call is a primitive of
type `DB -> Except String (result × DB)`: it either succeeds with a new
state or fails with the storage-layer error, leaving the state as it was at
that point.  A resolver sequences primitives exactly as the JavaScript
does; because the code uses no `prisma.$transaction`, a primitive that
fails after an earlier one succeeded leaves the earlier write committed —
the embedding keeps the intermediate state, which is what makes the
(non-)atomicity questions expressible.

Columns that no modelled operation reads or writes (timestamps, profile
fields of `Astrologer`, ...) are omitted from the row types; no modelled
control flow depends on them.
-/

namespace AdminAuth

/-- The `ApprovalStatus` enum of the schema. -/
inductive ApprovalStatus
  | PENDING
  | INTERVIEW
  | DOCUMENT_VERIFICATION
  | APPROVED
  | REJECTED
deriving DecidableEq, Repr

/-- A `User` row (end customer).  `mobile` is nullable with a unique index
(`User_mobile_key`). -/
structure UserRow where
  id : String
  name : Option String := none
  mobile : Option String := none
  occupation : Option String := none
  isActive : Bool := true
  isDeleted : Bool := false
deriving DecidableEq, Repr

/-- An `Astrologer` row; only the columns the modelled resolvers touch. -/
structure Astrologer where
  id : String
  name : String := ""
  approvalStatus : ApprovalStatus := .PENDING
deriving DecidableEq, Repr

/-- An `Interview` row.  `(astrologerId, roundNumber)` carries the unique
index `Interview_astrologerId_roundNumber_key`.  `scheduledAt` is kept as
the opaque timestamp string. -/
structure Interview where
  id : Nat
  astrologerId : String
  roundNumber : Int
  interviewerName : String
  scheduledAt : String
deriving DecidableEq, Repr

/-- An `AstrologerRejectionHistory` row.  `stage` is the `RejectionStage`
enum column, carried as the string the resolver passes through. -/
structure RejectionRow where
  id : Nat
  astrologerId : String
  stage : String
  reason : String
  rejectedBy : String
deriving DecidableEq, Repr

/-- A `Permission` row; `name` carries the unique index
`Permission_name_key`. -/
structure Permission where
  id : String
  name : String
  description : Option String := none
deriving DecidableEq, Repr

/-- A `Role` row; `name` carries the unique index `Role_name_key`. -/
structure Role where
  id : String
  name : String
  description : Option String := none
deriving DecidableEq, Repr

/-- A `RolePermission` join row.  The surrogate `id` column is never read
by any operation, so the row is identified by the pair, which carries the
unique index `RolePermission_roleId_permissionId_key`. -/
structure RolePermission where
  roleId : String
  permissionId : String
deriving DecidableEq, Repr

/-- An `Admin` row; only the columns the login service touches.
`password` is nullable in the schema. -/
structure AdminRow where
  id : String
  email : String
  password : Option String := none
  roleId : String := ""
  isActive : Bool := true
  refreshToken : Option String := none
deriving DecidableEq, Repr

/-- One event written to the external Mongo audit sink by
`logAdminAuthEvent` (fire and forget; its own failures are swallowed, so
the sink is modelled as always accepting). -/
structure AuthLogEvent where
  type : String
  email : String
deriving DecidableEq, Repr

/-- The whole storage state.  Lists are in insertion order (ascending
`createdAt`); the `next...` counters model the id generators
(`SERIAL` for `Interview` and `AstrologerRejectionHistory`, cuid for the
text-id tables). -/
structure DB where
  users : List UserRow := []
  astrologers : List Astrologer := []
  interviews : List Interview := []
  rejections : List RejectionRow := []
  permissions : List Permission := []
  roles : List Role := []
  rolePerms : List RolePermission := []
  admins : List AdminRow := []
  authLogs : List AuthLogEvent := []
  nextInterviewId : Nat := 0
  nextRejectionId : Nat := 0
  nextId : Nat := 0
deriving DecidableEq, Repr

/-- The authenticated actor placed in `context.user` by the auth
middleware. -/
structure AuthUser where
  id : String
  role : String
deriving DecidableEq, Repr

/-- `context.user`: absent when no valid bearer credential was presented. -/
abbrev Ctx := Option AuthUser

/-- Fresh text id for the cuid-defaulted tables. -/
def freshId (n : Nat) : String := "id-" ++ toString n

/-- The values of the `RejectionStage` enum column. -/
def validStage (s : String) : Bool :=
  s == "PROFILE" || s == "INTERVIEW" || s == "DOCUMENT"

/-- JavaScript string truthiness: the empty string is falsy. -/
def strTruthy (s : String) : Bool := s != ""

/-- Characters removed by JavaScript `String.prototype.trim` (the ASCII
whitespace the inputs of this API can contain). -/
def jsIsSpace (c : Char) : Bool :=
  c == ' ' || c == '\t' || c == '\n' || c == '\r' || c == '\x0b' || c == '\x0c'

/-- `s.trim()`. -/
def jsTrim (s : String) : String :=
  String.mk (((s.data.dropWhile jsIsSpace).reverse.dropWhile jsIsSpace).reverse)

/-- `s.toUpperCase()` on the ASCII names this API stores. -/
def jsToUpperCase (s : String) : String := String.mk (s.data.map Char.toUpper)

/-- The `name.trim().toUpperCase()` normalisation applied by every
Permission/Role create and update. -/
def normalizeName (s : String) : String := jsToUpperCase (jsTrim s)

/-! ## Storage primitives (the Prisma client against this schema) -/

/-- `prisma.astrologer.update({ where: { id }, data: { approvalStatus } })`:
fails with Prisma's P2025 message when no row matches `where`. -/
def astrologerSetStatus (db : DB) (id : String) (st : ApprovalStatus) :
    Except String DB :=
  if db.astrologers.any (fun a => a.id == id) then
    .ok { db with astrologers :=
      db.astrologers.map (fun a =>
        if a.id == id then { a with approvalStatus := st } else a) }
  else
    .error "Record to update not found."

/-- `prisma.interview.create`: enforces the `astrologerId` foreign key and
the `Interview_astrologerId_roundNumber_key` unique index. -/
def interviewCreate (db : DB) (astroId : String) (round : Int)
    (interviewer schedAt : String) : Except String (Interview × DB) :=
  if !(db.astrologers.any (fun a => a.id == astroId)) then
    .error "Foreign key constraint failed on the field: (astrologerId)"
  else if db.interviews.any (fun iv =>
      iv.astrologerId == astroId && iv.roundNumber == round) then
    .error "Unique constraint failed on the fields: (astrologerId,roundNumber)"
  else
    let iv : Interview :=
      ⟨db.nextInterviewId, astroId, round, interviewer, schedAt⟩
    .ok (iv, { db with
      interviews := db.interviews ++ [iv],
      nextInterviewId := db.nextInterviewId + 1 })

/-- `prisma.astrologerRejectionHistory.create`: enforces the foreign key
and the `RejectionStage` enum column. -/
def rejectionCreate (db : DB) (astroId stage reason rejectedBy : String) :
    Except String (RejectionRow × DB) :=
  if !(db.astrologers.any (fun a => a.id == astroId)) then
    .error "Foreign key constraint failed on the field: (astrologerId)"
  else if !(validStage stage) then
    .error "Invalid value for argument stage"
  else
    let row : RejectionRow :=
      ⟨db.nextRejectionId, astroId, stage, reason, rejectedBy⟩
    .ok (row, { db with
      rejections := db.rejections ++ [row],
      nextRejectionId := db.nextRejectionId + 1 })

/-! ## Approval-workflow resolvers (`src/graphql/resolvers.js`) -/

/-- Arguments of the `scheduleInterview` mutation. -/
structure ScheduleArgs where
  astrologerId : String
  roundNumber : Int
  interviewerName : String
  scheduledAt : String
deriving DecidableEq, Repr

/-- `scheduleInterview` (resolvers.js, lines 913-929): guard, then
`astrologer.update` to INTERVIEW, then `interview.create` — two separate
writes, no transaction, so a failing insert leaves the committed status
update in place. -/
def scheduleInterview (ctx : Ctx) (args : ScheduleArgs) (db : DB) :
    Except String Interview × DB :=
  match ctx with
  | none => (.error "Admin only", db)
  | some u =>
    if u.role != "ADMIN" then (.error "Admin only", db)
    else
      match astrologerSetStatus db args.astrologerId .INTERVIEW with
      | .error e => (.error e, db)
      | .ok db1 =>
        match interviewCreate db1 args.astrologerId args.roundNumber
            args.interviewerName args.scheduledAt with
        | .error e => (.error e, db1)
        | .ok (iv, db2) => (.ok iv, db2)

/-- `rejectAstrologer` (resolvers.js, lines 931-944): guard, then append
the rejection-history row, then set the status to REJECTED. -/
def rejectAstrologer (ctx : Ctx) (astrologerId stage reason : String)
    (db : DB) : Except String Bool × DB :=
  match ctx with
  | none => (.error "Admin only", db)
  | some u =>
    if u.role != "ADMIN" then (.error "Admin only", db)
    else
      match rejectionCreate db astrologerId stage reason u.id with
      | .error e => (.error e, db)
      | .ok (_, db1) =>
        match astrologerSetStatus db1 astrologerId .REJECTED with
        | .error e => (.error e, db1)
        | .ok db2 => (.ok true, db2)

/-- `approveAstrologer` (resolvers.js, lines 946-955): guard, then set the
status to APPROVED unconditionally. -/
def approveAstrologer (ctx : Ctx) (astrologerId : String) (db : DB) :
    Except String Bool × DB :=
  match ctx with
  | none => (.error "Admin only", db)
  | some u =>
    if u.role != "ADMIN" then (.error "Admin only", db)
    else
      match astrologerSetStatus db astrologerId .APPROVED with
      | .error e => (.error e, db)
      | .ok db1 => (.ok true, db1)

/-! ## Permission and Role store resolvers -/

/-- The flattened shape the Role mutations return: the role fields plus
`permissions.map (rp => rp.permission)`. -/
structure RoleResult where
  id : String
  name : String
  description : Option String
  permissions : List Permission
deriving DecidableEq, Repr

/-- The permission rows currently joined to `roleId`, in join-row order
(the `include: permissions: include: permission` shape, flattened). -/
def rolePermissionsOf (db : DB) (roleId : String) : List Permission :=
  (db.rolePerms.filter (fun rp => rp.roleId == roleId)).filterMap
    (fun rp => db.permissions.find? (fun p => p.id == rp.permissionId))

/-- `prisma.permission.findMany({ where: { id: { in: ids } } })`. -/
def permsMatching (db : DB) (ids : List String) : List Permission :=
  db.permissions.filter (fun p => ids.contains p.id)

/-- `createPermission` (resolvers.js, lines 359-380). -/
def createPermission (ctx : Ctx) (name : String) (description : Option String)
    (db : DB) : Except String Permission × DB :=
  match ctx with
  | none => (.error "Only SUPER_ADMIN can create permissions", db)
  | some u =>
    if u.role != "SUPER_ADMIN" then
      (.error "Only SUPER_ADMIN can create permissions", db)
    else
      let nn := normalizeName name
      match db.permissions.find? (fun p => p.name == nn) with
      | some _ => (.error "Permission already exists", db)
      | none =>
        let p : Permission := ⟨freshId db.nextId, nn, description⟩
        (.ok p, { db with
          permissions := db.permissions ++ [p],
          nextId := db.nextId + 1 })

/-- `updatePermission` (resolvers.js, lines 383-427).  `name` is an
optional argument; `if (name)` is JavaScript truthiness, and the spread
`...(normalizedName && ...)` only writes a truthy normalised name. -/
def updatePermission (ctx : Ctx) (permissionId : String)
    (name : Option String) (description : Option String) (db : DB) :
    Except String Permission × DB :=
  match ctx with
  | none => (.error "Only SUPER_ADMIN can update permissions", db)
  | some u =>
    if u.role != "SUPER_ADMIN" then
      (.error "Only SUPER_ADMIN can update permissions", db)
    else
      match db.permissions.find? (fun p => p.id == permissionId) with
      | none => (.error "Permission not found", db)
      | some existing =>
        let nn : Option String :=
          match name with
          | some s => if strTruthy s then some (normalizeName s) else none
          | none => none
        let dupBad : Bool :=
          match nn with
          | some n =>
            match db.permissions.find? (fun p => p.name == n) with
            | some d => d.id != permissionId
            | none => false
          | none => false
        if dupBad then (.error "Permission name already exists", db)
        else
          let updated : Permission :=
            { existing with
              name :=
                match nn with
                | some n => if strTruthy n then n else existing.name
                | none => existing.name,
              description :=
                match description with
                | some d => some d
                | none => existing.description }
          let db1 : DB := { db with
            permissions := db.permissions.map (fun p =>
              if p.id == permissionId then updated else p) }
          (.ok updated, db1)

/-- `createRole` (resolvers.js, lines 461-520): guard, duplicate-name
check on the normalised name, validation that every supplied permission id
exists (a length comparison against `findMany`), then one nested create of
the role and its join rows. -/
def createRole (ctx : Ctx) (name : String) (description : Option String)
    (permissionIds : List String) (db : DB) : Except String RoleResult × DB :=
  match ctx with
  | none => (.error "Only SUPER_ADMIN can create roles", db)
  | some u =>
    if u.role != "SUPER_ADMIN" then
      (.error "Only SUPER_ADMIN can create roles", db)
    else
      let nn := normalizeName name
      match db.roles.find? (fun r => r.name == nn) with
      | some _ => (.error "Role already exists", db)
      | none =>
        if permissionIds.length > 0 &&
            (permsMatching db permissionIds).length != permissionIds.length then
          (.error "One or more permission IDs are invalid", db)
        else
          let role : Role := ⟨freshId db.nextId, nn, description⟩
          let joins := permissionIds.map
            (fun pid => RolePermission.mk role.id pid)
          let db1 : DB := { db with
            roles := db.roles ++ [role],
            rolePerms := db.rolePerms ++ joins,
            nextId := db.nextId + 1 }
          (.ok ⟨role.id, role.name, role.description,
              rolePermissionsOf db1 role.id⟩, db1)

/-- `updateRole` (resolvers.js, lines 522-604).  When `permissionIds` is
supplied the relation update is `deleteMany: ...` followed by a nested
create — replace semantics, also when the new list is empty. -/
def updateRole (ctx : Ctx) (roleId : String) (name : Option String)
    (description : Option String) (permissionIds : Option (List String))
    (db : DB) : Except String RoleResult × DB :=
  match ctx with
  | none => (.error "Only SUPER_ADMIN can update roles", db)
  | some u =>
    if u.role != "SUPER_ADMIN" then
      (.error "Only SUPER_ADMIN can update roles", db)
    else
      match db.roles.find? (fun r => r.id == roleId) with
      | none => (.error "Role not found", db)
      | some existing =>
        let nn : Option String :=
          match name with
          | some s => if strTruthy s then some (normalizeName s) else none
          | none => none
        let dupBad : Bool :=
          match nn with
          | some n =>
            match db.roles.find? (fun r => r.name == n) with
            | some d => d.id != roleId
            | none => false
          | none => false
        if dupBad then (.error "Role name already exists", db)
        else
          let idsBad : Bool :=
            match permissionIds with
            | some pids =>
              pids.length > 0 &&
                (permsMatching db pids).length != pids.length
            | none => false
          if idsBad then (.error "One or more permission IDs are invalid", db)
          else
            let updated : Role :=
              { existing with
                name :=
                  match nn with
                  | some n => if strTruthy n then n else existing.name
                  | none => existing.name,
                description :=
                  match description with
                  | some d => some d
                  | none => existing.description }
            let newPerms : List RolePermission :=
              match permissionIds with
              | some pids =>
                db.rolePerms.filter (fun rp => rp.roleId != roleId) ++
                  pids.map (fun pid => RolePermission.mk roleId pid)
              | none => db.rolePerms
            let db1 : DB := { db with
              roles := db.roles.map (fun r =>
                if r.id == roleId then updated else r),
              rolePerms := newPerms }
            (.ok ⟨updated.id, updated.name, updated.description,
                rolePermissionsOf db1 roleId⟩, db1)

/-- `prisma.rolePermission.createMany({ data, skipDuplicates: true })`:
inserts the pairs in order, skipping any that would collide with the
`RolePermission_roleId_permissionId_key` index (already stored or earlier
in the same batch). -/
def rolePermCreateManySkipDup (rows : List RolePermission)
    (roleId : String) (pids : List String) : List RolePermission :=
  pids.foldl (fun acc pid =>
    if acc.any (fun rp => rp.roleId == roleId && rp.permissionId == pid) then
      acc
    else
      acc ++ [RolePermission.mk roleId pid]) rows

/-- `assignPermissionsToRole` (resolvers.js, lines 642-686): guard, role
lookup, validation of every supplied permission id, then an additive
`createMany` with `skipDuplicates`, then a re-fetch of the flattened
role. -/
def assignPermissionsToRole (ctx : Ctx) (roleId : String)
    (permissionIds : List String) (db : DB) :
    Except String RoleResult × DB :=
  match ctx with
  | none => (.error "Only SUPER_ADMIN can assign permissions", db)
  | some u =>
    if u.role != "SUPER_ADMIN" then
      (.error "Only SUPER_ADMIN can assign permissions", db)
    else
      match db.roles.find? (fun r => r.id == roleId) with
      | none => (.error "Role not found", db)
      | some role =>
        if (permsMatching db permissionIds).length != permissionIds.length then
          (.error "One or more permission IDs are invalid", db)
        else
          let db1 : DB := { db with rolePerms :=
            rolePermCreateManySkipDup db.rolePerms roleId permissionIds }
          (.ok ⟨role.id, role.name, role.description,
              rolePermissionsOf db1 roleId⟩, db1)

/-! ## User resolvers -/

/-- The `UpdateUserInput` GraphQL input: every field optional (`none`
models an absent key). -/
structure UserUpdateData where
  name : Option String := none
  mobile : Option String := none
  occupation : Option String := none
deriving DecidableEq, Repr

/-- The partial field merge `prisma.user.update` applies. -/
def userApply (u : UserRow) (d : UserUpdateData) : UserRow :=
  { u with
    name := match d.name with | some v => some v | none => u.name,
    mobile := match d.mobile with | some v => some v | none => u.mobile,
    occupation :=
      match d.occupation with | some v => some v | none => u.occupation }

/-- `prisma.user.update`: P2025 when the row is absent, and the
`User_mobile_key` unique index rejects a mobile already held by a
different row (NULL mobiles never collide). -/
def userUpdate (db : DB) (id : String) (d : UserUpdateData) :
    Except String (UserRow × DB) :=
  match db.users.find? (fun u => u.id == id) with
  | none => .error "Record to update not found."
  | some u =>
    let conflict : Bool :=
      match d.mobile with
      | some m => db.users.any (fun v => v.mobile == some m && v.id != id)
      | none => false
    if conflict then
      .error "Unique constraint failed on the fields: (mobile)"
    else
      let nu := userApply u d
      let db1 : DB := { db with
        users := db.users.map (fun v => if v.id == id then nu else v) }
      .ok (nu, db1)

/-- The first `updateUser` entry of the resolvers object literal
(resolvers.js, lines 821-854), which pre-checks the new mobile with
`findFirst` and throws the domain message "Mobile already in use".  A
second entry with the same key follows it in the object literal, so under
JavaScript object semantics this definition is SHADOWED and never
installed; it is kept here to compare against the effective one. -/
def updateUserShadowed (ctx : Ctx) (userId : String) (data : UserUpdateData)
    (db : DB) : Except String UserRow × DB :=
  match ctx with
  | none => (.error "Admin only", db)
  | some u =>
    if u.role != "ADMIN" then (.error "Admin only", db)
    else
      match db.users.find? (fun v => v.id == userId) with
      | none => (.error "User not found", db)
      | some v =>
        if v.isDeleted then (.error "User not found", db)
        else
          let mobileExists : Bool :=
            match data.mobile with
            | some m =>
              strTruthy m &&
                db.users.any (fun w => w.mobile == some m && w.id != userId)
            | none => false
          if mobileExists then (.error "Mobile already in use", db)
          else
            match userUpdate db userId data with
            | .error e => (.error e, db)
            | .ok (nu, db1) => (.ok nu, db1)

/-- The second `updateUser` entry (resolvers.js, lines 856-877) — the one
the resolvers object actually exports, since a later duplicate key
overwrites the earlier one.  It performs NO duplicate-mobile pre-check:
a conflicting mobile goes straight to storage and surfaces as the raw
unique-constraint error. -/
def updateUser (ctx : Ctx) (userId : String) (data : UserUpdateData)
    (db : DB) : Except String UserRow × DB :=
  match ctx with
  | none => (.error "Admin only", db)
  | some u =>
    if u.role != "ADMIN" then (.error "Admin only", db)
    else
      match db.users.find? (fun v => v.id == userId) with
      | none => (.error "User not found", db)
      | some v =>
        if v.isDeleted then (.error "User not found", db)
        else
          match userUpdate db userId data with
          | .error e => (.error e, db)
          | .ok (nu, db1) => (.ok nu, db1)

/-- The paginated result shape `{ data, totalCount, currentPage,
totalPages }`. -/
structure UsersPage where
  data : List UserRow
  totalCount : Nat
  currentPage : Nat
  totalPages : Nat
deriving DecidableEq, Repr

/-- `getUsersDetails` (resolvers.js, lines 12-34): ADMIN-only paginated
listing, newest first.  Pages and limits are the positive integers the API
defaults to (1 and 10). -/
def getUsersDetails (ctx : Ctx) (page limit : Nat) (db : DB) :
    Except String UsersPage × DB :=
  match ctx with
  | none => (.error "Admin only", db)
  | some u =>
    if u.role != "ADMIN" then (.error "Admin only", db)
    else
      let skip := (page - 1) * limit
      let rows := (db.users.reverse.drop skip).take limit
      (.ok ⟨rows, db.users.length, page,
        (db.users.length + limit - 1) / limit⟩, db)

/-! ## Admin login service (`src/services/auth.service.js`) -/

/-- The payload `adminLoginService` resolves with. -/
structure LoginResult where
  accessToken : String
  refreshToken : String
  admin : AdminRow
deriving DecidableEq, Repr

/-- The role name of an admin through the `Admin_roleId_fkey` relation
(the foreign key guarantees the role row exists). -/
def roleNameOf (db : DB) (a : AdminRow) : String :=
  match db.roles.find? (fun r => r.id == a.roleId) with
  | some r => r.name
  | none => ""

/-- `adminLoginService(email, password)` (auth.service.js): find the admin
by email; missing and inactive admins fail with the same message; then the
bcrypt comparison, token issuance, refresh-token storage, and audit-log
writes.  `compare`, `genAccess` (of id, email, role name) and `genRefresh`
(of id) are the external bcrypt/JWT collaborators, passed in as functions.
Mongo audit events are appended to `authLogs`; their own failures are
swallowed by the service and never change its outcome.  The outer
catch-and-rethrow preserves every (non-empty) error message thrown here. -/
def adminLoginService (compare : String → Option String → Bool)
    (genAccess : String → String → String → String)
    (genRefresh : String → String) (email password : String) (db : DB) :
    Except String LoginResult × DB :=
  match db.admins.find? (fun a => a.email == email) with
  | none =>
    (.error "Admin not found or inactive",
      { db with authLogs := db.authLogs ++ [⟨"LOGIN_FAILED", email⟩] })
  | some a =>
    if !a.isActive then
      (.error "Admin not found or inactive",
        { db with authLogs := db.authLogs ++ [⟨"LOGIN_FAILED", email⟩] })
    else if !(compare password a.password) then
      (.error "Invalid credentials",
        { db with authLogs := db.authLogs ++ [⟨"LOGIN_FAILED", email⟩] })
    else
      let access := genAccess a.id a.email (roleNameOf db a)
      let refresh := genRefresh a.id
      let db1 : DB := { db with
        admins := db.admins.map (fun x =>
          if x.id == a.id then { x with refreshToken := some refresh } else x) }
      (.ok ⟨access, refresh, a⟩,
        { db1 with authLogs := db1.authLogs ++ [⟨"LOGIN_SUCCESS", email⟩] })

/-! ## Derived observations -/

/-- How many stored interviews an astrologer has for a given round. -/
def interviewCount (db : DB) (astroId : String) (round : Int) : Nat :=
  (db.interviews.filter (fun iv =>
    iv.astrologerId == astroId && iv.roundNumber == round)).length

/-- How many join rows link `roleId` to `permissionId`. -/
def rolePermCount (db : DB) (roleId permissionId : String) : Nat :=
  (db.rolePerms.filter (fun rp =>
    rp.roleId == roleId && rp.permissionId == permissionId)).length

/-- The guard test every resolver opens with:
`context.user` present and its role in the allowed set. -/
def allowedRole (ctx : Ctx) (allowed : List String) : Bool :=
  match ctx with
  | none => false
  | some u => allowed.contains u.role

/-! ## Concrete states used by closed theorems and witnesses -/

/-- An ADMIN-role caller. -/
def ctxAdminEx : Ctx := some ⟨"adm-1", "ADMIN"⟩

/-- A SUPER_ADMIN-role caller. -/
def ctxSuperEx : Ctx := some ⟨"sa-1", "SUPER_ADMIN"⟩

/-- A PENDING astrologer that already has a round-1 interview on file. -/
def dbRound1 : DB :=
  { astrologers := [⟨"a1", "Asha", .PENDING⟩],
    interviews := [⟨0, "a1", 1, "Ivy", "2026-01-10T10:00:00.000Z"⟩],
    nextInterviewId := 1 }

/-- Two live users with distinct mobiles. -/
def dbUsers : DB :=
  { users := [{ id := "u1", name := some "Asha", mobile := some "111" },
              { id := "u2", name := some "Bela", mobile := some "999" }] }

/-- A role store already holding a role named ADMIN, and no permissions. -/
def dbRoleAdmin : DB :=
  { roles := [⟨"r1", "ADMIN", none⟩] }

/-- A PENDING astrologer with no interviews. -/
def dbFresh : DB :=
  { astrologers := [⟨"a1", "Asha", .PENDING⟩] }

/-! ## Claim theorems -/

/-- C1 (code_bug evidence): `scheduleInterview` is NOT atomic.  On an
astrologer that already has a round-1 interview, a round-1 call fails on
the `Interview_astrologerId_roundNumber_key` unique index, yet the
already-committed first write leaves `approvalStatus` changed from
PENDING to INTERVIEW — the status update dangles, no Interview row is
added. -/
theorem scheduleInterview_round_conflict_leaves_status_dangling :
    (scheduleInterview ctxAdminEx ⟨"a1", 1, "Maya", "2026-02-21T10:00:00.000Z"⟩
        dbRound1).fst
      = .error "Unique constraint failed on the fields: (astrologerId,roundNumber)"
    ∧ dbRound1.astrologers.map (fun a => a.approvalStatus) = [.PENDING]
    ∧ ((scheduleInterview ctxAdminEx ⟨"a1", 1, "Maya", "2026-02-21T10:00:00.000Z"⟩
        dbRound1).snd.astrologers.map (fun a => a.approvalStatus)) = [.INTERVIEW]
    ∧ (scheduleInterview ctxAdminEx ⟨"a1", 1, "Maya", "2026-02-21T10:00:00.000Z"⟩
        dbRound1).snd.interviews = dbRound1.interviews :=
  ⟨rfl, rfl, rfl, rfl⟩

/-- C9 (code_bug evidence): the resolvers object defines `updateUser`
twice; the second definition (no duplicate-mobile pre-check) shadows the
first, so updating a user to another user's mobile surfaces the raw
storage unique-constraint error instead of the domain message
"Mobile already in use".  The shadowed first definition would have
produced the domain message.  The target user row is left unchanged. -/
theorem updateUser_duplicate_mobile_surfaces_raw_storage_error :
    (updateUser ctxAdminEx "u1" { mobile := some "999" } dbUsers).fst
      = .error "Unique constraint failed on the fields: (mobile)"
    ∧ ("Unique constraint failed on the fields: (mobile)" : String)
      ≠ "Mobile already in use"
    ∧ (updateUser ctxAdminEx "u1" { mobile := some "999" } dbUsers).snd = dbUsers
    ∧ (updateUserShadowed ctxAdminEx "u1" { mobile := some "999" } dbUsers).fst
      = .error "Mobile already in use"
    ∧ dbUsers.users.map (fun v => v.mobile) = [some "111", some "999"] :=
  ⟨rfl, by decide, rfl, rfl, rfl⟩

/-- C6 (counterexample): a `createRole` call whose `permissionIds` list
contains an id absent from the Permission store does NOT always fail with
"One or more permission IDs are invalid": when the normalised role name
already exists, the duplicate-name check fires first and the call fails
with "Role already exists" instead. -/
theorem createRole_bad_permission_id_can_report_duplicate_name :
    dbRoleAdmin.permissions.map (fun p => p.id) = []
    ∧ (createRole ctxSuperEx "admin" none ["p-missing"] dbRoleAdmin).fst
      = .error "Role already exists"
    ∧ ("Role already exists" : String)
      ≠ "One or more permission IDs are invalid" :=
  ⟨rfl, rfl, by decide⟩

/-- A caller outside a singleton allowed set has a role bne-distinct from
that role. -/
theorem role_bne_of_not_allowed (u : AuthUser) (r : String)
    (h : allowedRole (some u) [r] = false) : (u.role != r) = true := by
  simp only [allowedRole, List.contains_cons, List.elem_nil, Bool.or_false] at h
  simp only [bne, h, Bool.not_false]

/-- C4: authorization fails closed.  For every modelled query or mutation
that declares a required role, a call whose `context.user` is absent or
whose role is outside the operation's allowed set returns exactly the
operation-specific error message and leaves the store untouched. -/
theorem authorization_fails_closed :
    (∀ ctx (page limit : Nat) (db : DB), allowedRole ctx ["ADMIN"] = false →
      getUsersDetails ctx page limit db = (.error "Admin only", db))
    ∧ (∀ ctx name d (db : DB), allowedRole ctx ["SUPER_ADMIN"] = false →
      createPermission ctx name d db
        = (.error "Only SUPER_ADMIN can create permissions", db))
    ∧ (∀ ctx pid name d (db : DB), allowedRole ctx ["SUPER_ADMIN"] = false →
      updatePermission ctx pid name d db
        = (.error "Only SUPER_ADMIN can update permissions", db))
    ∧ (∀ ctx name d pids (db : DB), allowedRole ctx ["SUPER_ADMIN"] = false →
      createRole ctx name d pids db
        = (.error "Only SUPER_ADMIN can create roles", db))
    ∧ (∀ ctx rid name d pids (db : DB), allowedRole ctx ["SUPER_ADMIN"] = false →
      updateRole ctx rid name d pids db
        = (.error "Only SUPER_ADMIN can update roles", db))
    ∧ (∀ ctx rid pids (db : DB), allowedRole ctx ["SUPER_ADMIN"] = false →
      assignPermissionsToRole ctx rid pids db
        = (.error "Only SUPER_ADMIN can assign permissions", db))
    ∧ (∀ ctx uid data (db : DB), allowedRole ctx ["ADMIN"] = false →
      updateUser ctx uid data db = (.error "Admin only", db))
    ∧ (∀ ctx args (db : DB), allowedRole ctx ["ADMIN"] = false →
      scheduleInterview ctx args db = (.error "Admin only", db))
    ∧ (∀ ctx aid stage reason (db : DB), allowedRole ctx ["ADMIN"] = false →
      rejectAstrologer ctx aid stage reason db = (.error "Admin only", db))
    ∧ (∀ ctx aid (db : DB), allowedRole ctx ["ADMIN"] = false →
      approveAstrologer ctx aid db = (.error "Admin only", db)) := by
  refine ⟨?_, ?_, ?_, ?_, ?_, ?_, ?_, ?_, ?_, ?_⟩
  · intro ctx page limit db h
    cases ctx with
    | none => rfl
    | some u => simp [getUsersDetails, role_bne_of_not_allowed u _ h]
  · intro ctx name d db h
    cases ctx with
    | none => rfl
    | some u => simp [createPermission, role_bne_of_not_allowed u _ h]
  · intro ctx pid name d db h
    cases ctx with
    | none => rfl
    | some u => simp [updatePermission, role_bne_of_not_allowed u _ h]
  · intro ctx name d pids db h
    cases ctx with
    | none => rfl
    | some u => simp [createRole, role_bne_of_not_allowed u _ h]
  · intro ctx rid name d pids db h
    cases ctx with
    | none => rfl
    | some u => simp [updateRole, role_bne_of_not_allowed u _ h]
  · intro ctx rid pids db h
    cases ctx with
    | none => rfl
    | some u =>
      simp [assignPermissionsToRole, role_bne_of_not_allowed u _ h]
  · intro ctx uid data db h
    cases ctx with
    | none => rfl
    | some u => simp [updateUser, role_bne_of_not_allowed u _ h]
  · intro ctx args db h
    cases ctx with
    | none => rfl
    | some u => simp [scheduleInterview, role_bne_of_not_allowed u _ h]
  · intro ctx aid stage reason db h
    cases ctx with
    | none => rfl
    | some u => simp [rejectAstrologer, role_bne_of_not_allowed u _ h]
  · intro ctx aid db h
    cases ctx with
    | none => rfl
    | some u => simp [approveAstrologer, role_bne_of_not_allowed u _ h]

/-- C4 witness: a missing actor on `getUsersDetails`, and a
SUPER_ADMIN-role actor on the ADMIN-only `approveAstrologer`, both hit the
guard with the literal message and unchanged state. -/
theorem authorization_fails_closed_witness :
    getUsersDetails none 1 10 dbUsers = (.error "Admin only", dbUsers)
    ∧ approveAstrologer ctxSuperEx "a1" dbFresh = (.error "Admin only", dbFresh) :=
  ⟨authorization_fails_closed.1 none 1 10 dbUsers rfl,
    (authorization_fails_closed.2.2.2.2.2.2.2.2.2) ctxSuperEx "a1" dbFresh rfl⟩

/-- C5: every Permission or Role name that `createPermission`,
`updatePermission`, `createRole` or `updateRole` stores is the trimmed,
upper-cased form of the input (updates write a name exactly when the
supplied name and its normalised form are truthy); in particular creating
a Permission named "create_reports" stores "CREATE_REPORTS". -/
theorem names_stored_normalized :
    (∀ ctx name d (db : DB) p,
      (createPermission ctx name d db).fst = .ok p →
        p.name = normalizeName name
        ∧ p ∈ (createPermission ctx name d db).snd.permissions)
    ∧ (∀ ctx name d pids (db : DB) r,
      (createRole ctx name d pids db).fst = .ok r →
        r.name = normalizeName name
        ∧ normalizeName name
          ∈ (createRole ctx name d pids db).snd.roles.map (fun x => x.name))
    ∧ (∀ ctx pid s d (db : DB) p,
      strTruthy s = true → strTruthy (normalizeName s) = true →
      (updatePermission ctx pid (some s) d db).fst = .ok p →
        p.name = normalizeName s)
    ∧ (∀ ctx rid s d pids (db : DB) r,
      strTruthy s = true → strTruthy (normalizeName s) = true →
      (updateRole ctx rid (some s) d pids db).fst = .ok r →
        r.name = normalizeName s)
    ∧ (createPermission ctxSuperEx "create_reports" none {}).snd.permissions.map
        (fun p => p.name) = ["CREATE_REPORTS"] := by
  refine ⟨?_, ?_, ?_, ?_, rfl⟩
  · intro ctx name d db p hok
    rcases ctx with _ | u
    · exact absurd hok (by simp [createPermission])
    · simp only [createPermission] at hok ⊢
      split at hok
      · exact absurd hok (by simp)
      next hrole =>
        split at hok
        · exact absurd hok (by simp)
        next hfind =>
          simp only [Except.ok.injEq] at hok
          subst hok
          simp only [bne_iff_ne, ne_eq, not_not] at hrole
          simp [hrole, hfind]
  · intro ctx name d pids db r hok
    rcases ctx with _ | u
    · exact absurd hok (by simp [createRole])
    · simp only [createRole] at hok ⊢
      split at hok
      · exact absurd hok (by simp)
      next hrole =>
        split at hok
        · exact absurd hok (by simp)
        next hfind =>
          split at hok
          · exact absurd hok (by simp)
          next hval =>
            simp only [Except.ok.injEq] at hok
            subst hok
            simp only [bne_iff_ne, ne_eq, not_not] at hrole
            have hval' : ¬(0 < pids.length
                ∧ ¬(permsMatching db pids).length = pids.length) := by
              simpa using hval
            exact ⟨rfl, by simp [hrole, hval']⟩
  · intro ctx pid s d db p hts htn hok
    rcases ctx with _ | u
    · exact absurd hok (by simp [updatePermission])
    · simp only [updatePermission, hts, if_true] at hok
      split at hok
      · exact absurd hok (by simp)
      · split at hok
        · exact absurd hok (by simp)
        · split at hok
          · exact absurd hok (by simp)
          · simp only [Except.ok.injEq] at hok
            subst hok
            simp [htn]
  · intro ctx rid s d pids db r hts htn hok
    rcases ctx with _ | u
    · exact absurd hok (by simp [updateRole])
    · simp only [updateRole, hts, if_true] at hok
      split at hok
      · exact absurd hok (by simp)
      · split at hok
        · exact absurd hok (by simp)
        · split at hok
          · exact absurd hok (by simp)
          · split at hok
            · exact absurd hok (by simp)
            · simp only [Except.ok.injEq] at hok
              subst hok
              simp [htn]

/-- C5 witness: a concrete SUPER_ADMIN `createPermission` call whose
stored name is the normalised input. -/
theorem names_stored_normalized_witness :
    Permission.name ⟨"id-0", "CREATE_REPORTS", none⟩
      = normalizeName "create_reports" :=
  (names_stored_normalized.1 ctxSuperEx "create_reports" none {}
    ⟨"id-0", "CREATE_REPORTS", none⟩ rfl).1

/-- A status write never changes a row's id. -/
theorem setStatus_preserves_id (a : Astrologer) (tgt : String)
    (st : ApprovalStatus) :
    (if a.id == tgt then { a with approvalStatus := st } else a).id = a.id := by
  split <;> rfl

/-- Existence checks by id are invariant under a status write. -/
theorem any_id_after_setStatus (l : List Astrologer) (tgt q : String)
    (st : ApprovalStatus) :
    ((l.map (fun a =>
        if a.id == tgt then { a with approvalStatus := st } else a)).any
      (fun a => a.id == q)) = l.any (fun a => a.id == q) := by
  induction l with
  | nil => rfl
  | cons a t ih =>
    simp only [List.map_cons, List.any_cons, ih, setStatus_preserves_id]

/-- C2: for an ADMIN caller and an existing astrologer (and a stage the
`RejectionStage` column accepts), `rejectAstrologer` succeeds, appends
exactly one rejection-history row carrying the stage, reason and caller id
(all prior rows preserved as a prefix), and sets the astrologer's status
to REJECTED, touching no other astrologer. -/
theorem rejectAstrologer_appends_history_and_sets_rejected
    (u : AuthUser) (hrole : u.role = "ADMIN")
    (astrologerId stage reason : String) (db : DB)
    (hstage : validStage stage = true)
    (hex : db.astrologers.any (fun a => a.id == astrologerId) = true) :
    (rejectAstrologer (some u) astrologerId stage reason db).fst = .ok true
    ∧ (rejectAstrologer (some u) astrologerId stage reason db).snd.rejections
      = db.rejections
        ++ [⟨db.nextRejectionId, astrologerId, stage, reason, u.id⟩]
    ∧ (rejectAstrologer (some u) astrologerId stage reason db).snd.astrologers
      = db.astrologers.map (fun a =>
          if a.id == astrologerId then { a with approvalStatus := .REJECTED }
          else a) := by
  simp [rejectAstrologer, rejectionCreate, astrologerSetStatus, hrole, hstage,
    hex]

/-- C2 witness: a concrete rejection on a fresh PENDING astrologer. -/
theorem rejectAstrologer_witness :
    (rejectAstrologer (some ⟨"adm-1", "ADMIN"⟩) "a1" "INTERVIEW"
        "Not qualified" dbFresh).fst = .ok true
    ∧ (rejectAstrologer (some ⟨"adm-1", "ADMIN"⟩) "a1" "INTERVIEW"
        "Not qualified" dbFresh).snd.rejections
      = dbFresh.rejections
        ++ [⟨dbFresh.nextRejectionId, "a1", "INTERVIEW", "Not qualified",
            AuthUser.id ⟨"adm-1", "ADMIN"⟩⟩]
    ∧ (rejectAstrologer (some ⟨"adm-1", "ADMIN"⟩) "a1" "INTERVIEW"
        "Not qualified" dbFresh).snd.astrologers
      = dbFresh.astrologers.map (fun a =>
          if a.id == "a1" then { a with approvalStatus := .REJECTED }
          else a) :=
  rejectAstrologer_appends_history_and_sets_rejected ⟨"adm-1", "ADMIN"⟩ rfl
    "a1" "INTERVIEW" "Not qualified" dbFresh rfl rfl

/-- A list none of whose elements satisfies a predicate filters to nil. -/
theorem filter_eq_nil_of_any_false {α : Type} (l : List α) (p : α → Bool)
    (h : l.any p = false) : l.filter p = [] := by
  induction l with
  | nil => rfl
  | cons a t ih =>
    simp only [List.any_cons, Bool.or_eq_false_iff] at h
    simp [List.filter_cons, h.1, ih h.2]

/-- C3: for an ADMIN caller, an existing astrologer and a round number not
yet on file, `scheduleInterview` succeeds, sets the status to INTERVIEW
and stores exactly one interview for that round; a second call for the
same astrologer and round fails on the unique index and stores nothing
new. -/
theorem scheduleInterview_first_succeeds_second_conflicts
    (u : AuthUser) (hrole : u.role = "ADMIN") (args args2 : ScheduleArgs)
    (db : DB)
    (hex : db.astrologers.any (fun a => a.id == args.astrologerId) = true)
    (hnone : db.interviews.any (fun iv =>
        iv.astrologerId == args.astrologerId
          && iv.roundNumber == args.roundNumber) = false)
    (hsame : args2.astrologerId = args.astrologerId)
    (hround : args2.roundNumber = args.roundNumber) :
    (scheduleInterview (some u) args db).fst
      = .ok ⟨db.nextInterviewId, args.astrologerId, args.roundNumber,
          args.interviewerName, args.scheduledAt⟩
    ∧ (scheduleInterview (some u) args db).snd.astrologers
      = db.astrologers.map (fun a =>
          if a.id == args.astrologerId then { a with approvalStatus := .INTERVIEW }
          else a)
    ∧ interviewCount (scheduleInterview (some u) args db).snd
        args.astrologerId args.roundNumber = 1
    ∧ (scheduleInterview (some u) args2
        (scheduleInterview (some u) args db).snd).fst
      = .error "Unique constraint failed on the fields: (astrologerId,roundNumber)"
    ∧ (scheduleInterview (some u) args2
        (scheduleInterview (some u) args db).snd).snd.interviews
      = (scheduleInterview (some u) args db).snd.interviews := by
  have h1 : scheduleInterview (some u) args db
      = (.ok ⟨db.nextInterviewId, args.astrologerId, args.roundNumber,
            args.interviewerName, args.scheduledAt⟩,
          { db with
            astrologers := db.astrologers.map (fun a =>
              if a.id == args.astrologerId then
                { a with approvalStatus := .INTERVIEW }
              else a),
            interviews := db.interviews
              ++ [⟨db.nextInterviewId, args.astrologerId, args.roundNumber,
                  args.interviewerName, args.scheduledAt⟩],
            nextInterviewId := db.nextInterviewId + 1 }) := by
    simp only [scheduleInterview, astrologerSetStatus, interviewCreate, hrole,
      bne_self_eq_false, Bool.false_eq_true, if_false, hex, if_true,
      any_id_after_setStatus, Bool.not_true, hnone]
  have hfilter := filter_eq_nil_of_any_false db.interviews _ hnone
  refine ⟨by rw [h1], by rw [h1], ?_, ?_, ?_⟩
  · rw [h1]
    simp [interviewCount, List.filter_append, hfilter]
  · rw [h1]
    simp only [scheduleInterview, astrologerSetStatus, interviewCreate, hrole,
      bne_self_eq_false, Bool.false_eq_true, if_false, hsame, hround,
      any_id_after_setStatus, hex, if_true, Bool.not_true, List.any_append,
      List.any_cons, List.any_nil, beq_self_eq_true, Bool.and_self,
      Bool.or_false, Bool.or_true, hnone, Bool.false_or]
  · rw [h1]
    simp only [scheduleInterview, astrologerSetStatus, interviewCreate, hrole,
      bne_self_eq_false, Bool.false_eq_true, if_false, hsame, hround,
      any_id_after_setStatus, hex, if_true, Bool.not_true, List.any_append,
      List.any_cons, List.any_nil, beq_self_eq_true, Bool.and_self,
      Bool.or_false, Bool.or_true, hnone, Bool.false_or]

/-- C3 witness: round 1 scheduled on a fresh astrologer, then the same
round again. -/
theorem scheduleInterview_witness :
    (scheduleInterview (some ⟨"adm-1", "ADMIN"⟩)
        ⟨"a1", 1, "Ivy", "2026-02-21T10:00:00.000Z"⟩ dbFresh).fst
      = .ok ⟨dbFresh.nextInterviewId, "a1", 1, "Ivy",
          "2026-02-21T10:00:00.000Z"⟩
    ∧ (scheduleInterview (some ⟨"adm-1", "ADMIN"⟩)
        ⟨"a1", 1, "Ivy", "2026-02-21T10:00:00.000Z"⟩ dbFresh).snd.astrologers
      = dbFresh.astrologers.map (fun a =>
          if a.id == "a1" then { a with approvalStatus := .INTERVIEW } else a)
    ∧ interviewCount (scheduleInterview (some ⟨"adm-1", "ADMIN"⟩)
        ⟨"a1", 1, "Ivy", "2026-02-21T10:00:00.000Z"⟩ dbFresh).snd "a1" 1 = 1
    ∧ (scheduleInterview (some ⟨"adm-1", "ADMIN"⟩)
        ⟨"a1", 1, "Mira", "2026-03-01T10:00:00.000Z"⟩
        (scheduleInterview (some ⟨"adm-1", "ADMIN"⟩)
          ⟨"a1", 1, "Ivy", "2026-02-21T10:00:00.000Z"⟩ dbFresh).snd).fst
      = .error "Unique constraint failed on the fields: (astrologerId,roundNumber)"
    ∧ (scheduleInterview (some ⟨"adm-1", "ADMIN"⟩)
        ⟨"a1", 1, "Mira", "2026-03-01T10:00:00.000Z"⟩
        (scheduleInterview (some ⟨"adm-1", "ADMIN"⟩)
          ⟨"a1", 1, "Ivy", "2026-02-21T10:00:00.000Z"⟩ dbFresh).snd).snd.interviews
      = (scheduleInterview (some ⟨"adm-1", "ADMIN"⟩)
          ⟨"a1", 1, "Ivy", "2026-02-21T10:00:00.000Z"⟩ dbFresh).snd.interviews :=
  scheduleInterview_first_succeeds_second_conflicts ⟨"adm-1", "ADMIN"⟩ rfl
    ⟨"a1", 1, "Ivy", "2026-02-21T10:00:00.000Z"⟩
    ⟨"a1", 1, "Mira", "2026-03-01T10:00:00.000Z"⟩ dbFresh rfl rfl rfl rfl

/-- Writing the same status twice is the same as writing it once. -/
theorem map_setStatus_idem (l : List Astrologer) (tgt : String)
    (st : ApprovalStatus) :
    ((l.map (fun x => if x.id == tgt then { x with approvalStatus := st }
        else x)).map
      (fun x => if x.id == tgt then { x with approvalStatus := st } else x))
    = l.map (fun x =>
        if x.id == tgt then { x with approvalStatus := st } else x) := by
  induction l with
  | nil => rfl
  | cons a t ih =>
    simp only [List.map_cons, ih]
    by_cases h : (a.id == tgt) = true <;> simp [h]

/-- An astrologer with REJECTED status on file. -/
def dbRejected : DB :=
  { astrologers := [⟨"a1", "Asha", .REJECTED⟩] }

/-- C8: `approveAstrologer` sets APPROVED for an existing astrologer with
no precondition on the prior status (the map covers every starting
status, REJECTED included), and running it again on the result returns
the same success and leaves the state exactly unchanged. -/
theorem approveAstrologer_permissive_and_idempotent
    (u : AuthUser) (hrole : u.role = "ADMIN") (astrologerId : String)
    (db : DB)
    (hex : db.astrologers.any (fun a => a.id == astrologerId) = true) :
    (approveAstrologer (some u) astrologerId db).fst = .ok true
    ∧ (approveAstrologer (some u) astrologerId db).snd.astrologers
      = db.astrologers.map (fun a =>
          if a.id == astrologerId then { a with approvalStatus := .APPROVED }
          else a)
    ∧ approveAstrologer (some u) astrologerId
        (approveAstrologer (some u) astrologerId db).snd
      = (.ok true, (approveAstrologer (some u) astrologerId db).snd) := by
  have h1 : approveAstrologer (some u) astrologerId db
      = (.ok true, { db with astrologers := db.astrologers.map (fun a =>
          if a.id == astrologerId then { a with approvalStatus := .APPROVED }
          else a) }) := by
    simp only [approveAstrologer, astrologerSetStatus, hrole,
      bne_self_eq_false, Bool.false_eq_true, if_false, hex, if_true]
  refine ⟨by rw [h1], by rw [h1], ?_⟩
  rw [h1]
  simp only [approveAstrologer, astrologerSetStatus, hrole,
    bne_self_eq_false, Bool.false_eq_true, if_false, any_id_after_setStatus,
    hex, if_true, map_setStatus_idem]

/-- C8 witness: re-approving an already-REJECTED astrologer, twice. -/
theorem approveAstrologer_witness :
    (approveAstrologer (some ⟨"adm-1", "ADMIN"⟩) "a1" dbRejected).fst
      = .ok true
    ∧ (approveAstrologer (some ⟨"adm-1", "ADMIN"⟩) "a1"
        dbRejected).snd.astrologers
      = dbRejected.astrologers.map (fun a =>
          if a.id == "a1" then { a with approvalStatus := .APPROVED } else a)
    ∧ approveAstrologer (some ⟨"adm-1", "ADMIN"⟩) "a1"
        (approveAstrologer (some ⟨"adm-1", "ADMIN"⟩) "a1" dbRejected).snd
      = (.ok true,
          (approveAstrologer (some ⟨"adm-1", "ADMIN"⟩) "a1" dbRejected).snd) :=
  approveAstrologer_permissive_and_idempotent ⟨"adm-1", "ADMIN"⟩ rfl "a1"
    dbRejected rfl

/-- A store whose only admin account is inactive. -/
def dbInactiveAdmin : DB :=
  { admins := [⟨"ad1", "a@x.com", some "h", "r1", false, none⟩] }

/-- C10: `adminLoginService` is enumeration-safe — whenever no active
admin carries the requested email (covering both "no such admin" and
"admin exists but inactive"), it fails with the single message
"Admin not found or inactive", for every password and every
bcrypt/JWT collaborator, and writes nothing to the admin table (in
particular no refresh token, and no token appears in a result). -/
theorem adminLogin_enumeration_safe
    (compare : String → Option String → Bool)
    (genAccess : String → String → String → String)
    (genRefresh : String → String) (email password : String) (db : DB)
    (h : ∀ a ∈ db.admins, a.email = email → a.isActive = false) :
    (adminLoginService compare genAccess genRefresh email password db).fst
      = .error "Admin not found or inactive"
    ∧ (adminLoginService compare genAccess genRefresh email password
        db).snd.admins = db.admins := by
  cases hf : db.admins.find? (fun a => a.email == email) with
  | none =>
    simp [adminLoginService, hf]
  | some a =>
    have hm := List.mem_of_find?_eq_some hf
    have hp := List.find?_some hf
    have hia : a.isActive = false := h a hm (by simpa using hp)
    simp [adminLoginService, hf, hia]

/-- C10 witness: the empty store (unknown email) and an inactive admin
produce the identical error with the admin table untouched. -/
theorem adminLogin_enumeration_safe_witness :
    ((adminLoginService (fun _ _ => true) (fun i _ _ => i) (fun i => i)
        "a@x.com" "pw" {}).fst = .error "Admin not found or inactive"
      ∧ (adminLoginService (fun _ _ => true) (fun i _ _ => i) (fun i => i)
        "a@x.com" "pw" ({} : DB)).snd.admins = DB.admins {})
    ∧ ((adminLoginService (fun _ _ => true) (fun i _ _ => i) (fun i => i)
        "a@x.com" "pw" dbInactiveAdmin).fst
          = .error "Admin not found or inactive"
      ∧ (adminLoginService (fun _ _ => true) (fun i _ _ => i) (fun i => i)
        "a@x.com" "pw" dbInactiveAdmin).snd.admins = dbInactiveAdmin.admins) :=
  ⟨adminLogin_enumeration_safe (fun _ _ => true) (fun i _ _ => i)
      (fun i => i) "a@x.com" "pw" {} (by decide),
    adminLogin_enumeration_safe (fun _ _ => true) (fun i _ _ => i)
      (fun i => i) "a@x.com" "pw" dbInactiveAdmin (by decide)⟩

/-- The ids of the rows a `findMany id in ids` query returns are distinct,
provided the store's primary keys are. -/
theorem permsMatching_ids_nodup (db : DB) (pids : List String)
    (hnd : (db.permissions.map (fun p => p.id)).Nodup) :
    ((permsMatching db pids).map (fun p => p.id)).Nodup :=
  hnd.sublist ((List.filter_sublist db.permissions).map (fun p => p.id))

/-- When some requested id is absent from the store, the `findMany` result
is strictly shorter than the request (the length comparison the resolvers
use as validation). -/
theorem permsMatching_length_ne_of_missing (db : DB) (pids : List String)
    (hnd : (db.permissions.map (fun p => p.id)).Nodup) (bad : String)
    (hin : bad ∈ pids) (habs : bad ∉ db.permissions.map (fun p => p.id)) :
    (permsMatching db pids).length ≠ pids.length := by
  intro hlen
  have hnodup := permsMatching_ids_nodup db pids hnd
  have hsub : ((permsMatching db pids).map (fun p => p.id))
      ⊆ (pids.dedup.erase bad) := by
    intro x hx
    rcases List.mem_map.mp hx with ⟨p, hp, rfl⟩
    have hpf := List.mem_filter.mp hp
    have hxpids : p.id ∈ pids := by simpa using hpf.2
    have hxstore : p.id ∈ db.permissions.map (fun p => p.id) :=
      List.mem_map_of_mem _ hpf.1
    have hne : p.id ≠ bad := fun he => habs (he ▸ hxstore)
    exact (List.mem_erase_of_ne hne).mpr (List.mem_dedup.mpr hxpids)
  have hle := (hnodup.subperm hsub).length_le
  have hme : (pids.dedup.erase bad).length = pids.dedup.length - 1 :=
    List.length_erase_of_mem (List.mem_dedup.mpr hin)
  have hdl : pids.dedup.length ≤ pids.length := pids.dedup_sublist.length_le
  have hpos : 0 < pids.length := List.length_pos_of_mem hin
  have hml : ((permsMatching db pids).map (fun p => p.id)).length
      = (permsMatching db pids).length := List.length_map _ _
  omega

/-- When every requested id is in the store and the request has no
duplicates, the `findMany` result has exactly the request's length. -/
theorem permsMatching_length_eq_of_present (db : DB) (pids : List String)
    (hnd : (db.permissions.map (fun p => p.id)).Nodup) (hpnd : pids.Nodup)
    (hall : ∀ x ∈ pids, x ∈ db.permissions.map (fun p => p.id)) :
    (permsMatching db pids).length = pids.length := by
  have hnodup := permsMatching_ids_nodup db pids hnd
  have hsub1 : ((permsMatching db pids).map (fun p => p.id)) ⊆ pids := by
    intro x hx
    rcases List.mem_map.mp hx with ⟨p, hp, rfl⟩
    simpa using (List.mem_filter.mp hp).2
  have hsub2 : pids ⊆ ((permsMatching db pids).map (fun p => p.id)) := by
    intro x hx
    rcases List.mem_map.mp (hall x hx) with ⟨p, hp, rfl⟩
    refine List.mem_map_of_mem _ (List.mem_filter.mpr ⟨hp, ?_⟩)
    simpa using hx
  have h1 := (hnodup.subperm hsub1).length_le
  have h2 := (hpnd.subperm hsub2).length_le
  have hml : ((permsMatching db pids).map (fun p => p.id)).length
      = (permsMatching db pids).length := List.length_map _ _
  omega

/-- C6 (amended): a `createRole` or `updateRole` call whose
`permissionIds` list contains an id absent from the Permission store never
writes anything — whichever check fires, the state is returned untouched;
and when the call reaches the permission validation (SUPER_ADMIN caller;
createRole name fresh; updateRole target found and any requested rename
passing the duplicate check, i.e. no OTHER role already holds the
normalised new name), the failure message is exactly
"One or more permission IDs are invalid". -/
theorem invalid_permission_ids_reject_without_write :
    (∀ ctx name d pids (db : DB) bad,
      (db.permissions.map (fun p => p.id)).Nodup → bad ∈ pids →
      bad ∉ db.permissions.map (fun p => p.id) →
      (createRole ctx name d pids db).snd = db)
    ∧ (∀ ctx rid name d pids (db : DB) bad,
      (db.permissions.map (fun p => p.id)).Nodup → bad ∈ pids →
      bad ∉ db.permissions.map (fun p => p.id) →
      (updateRole ctx rid name d (some pids) db).snd = db)
    ∧ (∀ (u : AuthUser) name d pids (db : DB) bad,
      u.role = "SUPER_ADMIN" →
      db.roles.find? (fun r => r.name == normalizeName name) = none →
      (db.permissions.map (fun p => p.id)).Nodup → bad ∈ pids →
      bad ∉ db.permissions.map (fun p => p.id) →
      (createRole (some u) name d pids db).fst
        = .error "One or more permission IDs are invalid")
    ∧ (∀ (u : AuthUser) rid name d pids (db : DB) bad ro,
      u.role = "SUPER_ADMIN" →
      db.roles.find? (fun r => r.id == rid) = some ro →
      (∀ s, name = some s → strTruthy s = true →
        ∀ dup, db.roles.find? (fun r => r.name == normalizeName s) = some dup →
          dup.id = rid) →
      (db.permissions.map (fun p => p.id)).Nodup → bad ∈ pids →
      bad ∉ db.permissions.map (fun p => p.id) →
      (updateRole (some u) rid name d (some pids) db).fst
        = .error "One or more permission IDs are invalid") := by
  have hval : ∀ (db : DB) pids bad,
      (db.permissions.map (fun p => p.id)).Nodup → bad ∈ pids →
      bad ∉ db.permissions.map (fun p => p.id) →
      (decide (pids.length > 0)
        && ((permsMatching db pids).length != pids.length)) = true := by
    intro db pids bad hnd hin habs
    simp only [Bool.and_eq_true, decide_eq_true_eq, bne_iff_ne, ne_eq]
    exact ⟨List.length_pos_of_mem hin,
      permsMatching_length_ne_of_missing db pids hnd bad hin habs⟩
  refine ⟨?_, ?_, ?_, ?_⟩
  · intro ctx name d pids db bad hnd hin habs
    rcases ctx with _ | u
    · rfl
    · by_cases hr : (u.role != "SUPER_ADMIN") = true
      · simp [createRole, hr]
      · rcases hf : db.roles.find? (fun r => r.name == normalizeName name)
          with _ | ro
        · simp [createRole, hr, hf, hval db pids bad hnd hin habs]
        · simp [createRole, hr, hf]
  · intro ctx rid name d pids db bad hnd hin habs
    rcases ctx with _ | u
    · rfl
    · by_cases hr : (u.role != "SUPER_ADMIN") = true
      · simp [updateRole, hr]
      · rcases hf : db.roles.find? (fun r => r.id == rid) with _ | ro
        · simp [updateRole, hr, hf]
        · by_cases hd : (match name with
            | some s => if strTruthy s then some (normalizeName s) else none
            | none => none) = (none : Option String)
          · simp [updateRole, hr, hf, hd, hval db pids bad hnd hin habs]
          · rcases hnn : (match name with
              | some s => if strTruthy s then some (normalizeName s) else none
              | none => none) with _ | n
            · exact absurd hnn hd
            · rcases hdf : db.roles.find? (fun r => r.name == n) with _ | dup
              · simp [updateRole, hr, hf, hnn, hdf,
                  hval db pids bad hnd hin habs]
              · by_cases hdup : (dup.id != rid) = true
                · simp [updateRole, hr, hf, hnn, hdf, hdup]
                · simp [updateRole, hr, hf, hnn, hdf, hdup,
                    hval db pids bad hnd hin habs]
  · intro u name d pids db bad hr hf hnd hin habs
    simp [createRole, hr, hf, hval db pids bad hnd hin habs]
  · intro u rid name d pids db bad ro hr hf hpass hnd hin habs
    have hv := hval db pids bad hnd hin habs
    rcases name with _ | s
    · simp [updateRole, hr, hf, hv]
    · cases hts : strTruthy s with
      | false => simp [updateRole, hr, hf, hts, hv]
      | true =>
        rcases hdf : db.roles.find? (fun r => r.name == normalizeName s)
          with _ | dup
        · simp [updateRole, hr, hf, hts, hdf, hv]
        · have hdid : (dup.id != rid) = false := by
            simp [hpass s rfl hts dup hdf]
          simp [updateRole, hr, hf, hts, hdf, hdid, hv]

/-- C6 amended-claim witness: with one unknown permission id, a
SUPER_ADMIN `createRole` with a fresh name fails with the validation
message and writes nothing; a SUPER_ADMIN `updateRole` on the stored role
fails with the same message both when renaming to a fresh name
("helper2") and when re-submitting its own name ("admin"), the two ways a
rename passes the duplicate check. -/
theorem invalid_permission_ids_reject_without_write_witness :
    (createRole (some ⟨"sa-1", "SUPER_ADMIN"⟩) "helper" none ["p-missing"]
        dbRoleAdmin).fst = .error "One or more permission IDs are invalid"
    ∧ (createRole (some ⟨"sa-1", "SUPER_ADMIN"⟩) "helper" none ["p-missing"]
        dbRoleAdmin).snd = dbRoleAdmin
    ∧ (updateRole (some ⟨"sa-1", "SUPER_ADMIN"⟩) "r1" (some "helper2") none
        (some ["p-missing"]) dbRoleAdmin).fst
      = .error "One or more permission IDs are invalid"
    ∧ (updateRole (some ⟨"sa-1", "SUPER_ADMIN"⟩) "r1" (some "admin") none
        (some ["p-missing"]) dbRoleAdmin).fst
      = .error "One or more permission IDs are invalid" :=
  ⟨invalid_permission_ids_reject_without_write.2.2.1 ⟨"sa-1", "SUPER_ADMIN"⟩
      "helper" none ["p-missing"] dbRoleAdmin "p-missing" rfl rfl
      (by decide) (by decide) (by decide),
    invalid_permission_ids_reject_without_write.1
      (some ⟨"sa-1", "SUPER_ADMIN"⟩) "helper" none ["p-missing"] dbRoleAdmin
      "p-missing" (by decide) (by decide) (by decide),
    invalid_permission_ids_reject_without_write.2.2.2 ⟨"sa-1", "SUPER_ADMIN"⟩
      "r1" (some "helper2") none ["p-missing"] dbRoleAdmin "p-missing"
      ⟨"r1", "ADMIN", none⟩ rfl rfl
      (fun s hs hts dup hdup => by
        cases hs
        exact Option.noConfusion
          (show (none : Option Role) = some dup from hdup))
      (by decide) (by decide) (by decide),
    invalid_permission_ids_reject_without_write.2.2.2 ⟨"sa-1", "SUPER_ADMIN"⟩
      "r1" (some "admin") none ["p-missing"] dbRoleAdmin "p-missing"
      ⟨"r1", "ADMIN", none⟩ rfl rfl
      (fun s hs hts dup hdup => by
        cases hs
        have h' : (some (⟨"r1", "ADMIN", none⟩ : Role) : Option Role)
            = some dup := hdup
        cases h'
        rfl)
      (by decide) (by decide) (by decide)⟩

/-- The batch-insert predicate holds of a join row exactly when the row is
the requested pair (a `RolePermission` is nothing but its two columns). -/
theorem pair_pred_iff (rp : RolePermission) (r p : String) :
    ((rp.roleId == r && rp.permissionId == p) = true) ↔ rp = (⟨r, p⟩ : RolePermission) := by
  cases rp
  simp [RolePermission.mk.injEq, and_comm]

/-- One step of the skip-duplicates insert. -/
def skipDupStep (roleId : String) (acc : List RolePermission)
    (pid : String) : List RolePermission :=
  if acc.any (fun rp => rp.roleId == roleId && rp.permissionId == pid) then
    acc
  else
    acc ++ [RolePermission.mk roleId pid]

/-- The fold of `rolePermCreateManySkipDup` is the fold of its step. -/
theorem rolePermCreateManySkipDup_eq_foldl (rows : List RolePermission)
    (roleId : String) (pids : List String) :
    rolePermCreateManySkipDup rows roleId pids
      = pids.foldl (skipDupStep roleId) rows := rfl

/-- Existing join rows survive the skip-duplicates insert. -/
theorem skipDup_preserves (roleId : String) (pids : List String)
    (rows : List RolePermission) (rp : RolePermission) (h : rp ∈ rows) :
    rp ∈ rolePermCreateManySkipDup rows roleId pids := by
  rw [rolePermCreateManySkipDup_eq_foldl]
  induction pids generalizing rows with
  | nil => exact h
  | cons q t ih =>
    rw [List.foldl_cons]
    apply ih
    unfold skipDupStep
    split
    · exact h
    · exact List.mem_append_left _ h

/-- Every requested pair is present after the skip-duplicates insert. -/
theorem skipDup_mem (roleId : String) (pids : List String)
    (rows : List RolePermission) (p : String) (h : p ∈ pids) :
    (⟨roleId, p⟩ : RolePermission)
      ∈ rolePermCreateManySkipDup rows roleId pids := by
  rw [rolePermCreateManySkipDup_eq_foldl]
  induction pids generalizing rows with
  | nil => cases h
  | cons q t ih =>
    rw [List.foldl_cons]
    rcases List.mem_cons.mp h with he | ht
    · subst he
      have hstep : (⟨roleId, p⟩ : RolePermission) ∈ skipDupStep roleId rows p := by
        unfold skipDupStep
        split
        next hany =>
          rcases List.any_eq_true.mp hany with ⟨rp, hrp, hpred⟩
          exact (pair_pred_iff rp roleId p).mp hpred ▸ hrp
        · exact List.mem_append_right _ (List.mem_singleton.mpr rfl)
      have := skipDup_preserves roleId t (skipDupStep roleId rows p) _ hstep
      rwa [rolePermCreateManySkipDup_eq_foldl] at this
    · exact ih (skipDupStep roleId rows q) ht

/-- The skip-duplicates insert keeps the join table duplicate-free. -/
theorem skipDup_nodup (roleId : String) (pids : List String)
    (rows : List RolePermission) (h : rows.Nodup) :
    (rolePermCreateManySkipDup rows roleId pids).Nodup := by
  rw [rolePermCreateManySkipDup_eq_foldl]
  induction pids generalizing rows with
  | nil => exact h
  | cons q t ih =>
    rw [List.foldl_cons]
    apply ih
    unfold skipDupStep
    split
    next hany => exact h
    next hany =>
      have hnm : (⟨roleId, q⟩ : RolePermission) ∉ rows := by
        intro hm
        exact hany (List.any_eq_true.mpr
          ⟨_, hm, (pair_pred_iff _ roleId q).mpr rfl⟩)
      simp [List.nodup_append, h, hnm]

/-- The skip-duplicates insert is a no-op when every requested pair is
already stored. -/
theorem skipDup_noop (roleId : String) (pids : List String)
    (rows : List RolePermission)
    (h : ∀ p ∈ pids, (⟨roleId, p⟩ : RolePermission) ∈ rows) :
    rolePermCreateManySkipDup rows roleId pids = rows := by
  rw [rolePermCreateManySkipDup_eq_foldl]
  induction pids with
  | nil => rfl
  | cons q t ih =>
    rw [List.foldl_cons]
    have hstep : skipDupStep roleId rows q = rows := by
      unfold skipDupStep
      rw [if_pos (List.any_eq_true.mpr
        ⟨_, h q (List.mem_cons_self q t), (pair_pred_iff _ roleId q).mpr rfl⟩)]
    rw [hstep]
    exact ih (fun p hp => h p (List.mem_cons_of_mem q hp))

/-- In a duplicate-free join table a stored pair is counted exactly once. -/
theorem pair_filter_length_one (rows : List RolePermission) (r p : String)
    (hnd : rows.Nodup) (hm : (⟨r, p⟩ : RolePermission) ∈ rows) :
    (rows.filter (fun rp => rp.roleId == r && rp.permissionId == p)).length
      = 1 := by
  induction rows with
  | nil => cases hm
  | cons a t ih =>
    by_cases ha : a = (⟨r, p⟩ : RolePermission)
    · subst ha
      have hnt : (⟨r, p⟩ : RolePermission) ∉ t := (List.nodup_cons.mp hnd).1
      have hft : t.filter (fun rp =>
          rp.roleId == r && rp.permissionId == p) = [] := by
        refine filter_eq_nil_of_any_false _ _ ?_
        cases hq : t.any (fun rp => rp.roleId == r && rp.permissionId == p) with
        | false => rfl
        | true =>
          rcases List.any_eq_true.mp hq with ⟨rp, hrp, hpred⟩
          exact absurd ((pair_pred_iff rp r p).mp hpred ▸ hrp) hnt
      simp [List.filter_cons,
        (pair_pred_iff (⟨r, p⟩ : RolePermission) r p).mpr rfl, hft]
    · have hpa : (a.roleId == r && a.permissionId == p) = false := by
        cases hq : (a.roleId == r && a.permissionId == p) with
        | false => rfl
        | true => exact absurd ((pair_pred_iff a r p).mp hq) ha
      have hmt : (⟨r, p⟩ : RolePermission) ∈ t := by
        rcases List.mem_cons.mp hm with he | ht
        · exact absurd he.symm ha
        · exact ht
      simp [List.filter_cons, hpa, ih (List.nodup_cons.mp hnd).2 hmt]

/-- C7: `assignPermissionsToRole` is additive — no call, successful or
not, ever removes an existing join row — and idempotent: after calling it
twice with the same valid duplicate-free ids (on a store whose primary
keys and join table satisfy their unique indexes), the join table is what
one call produced, stays duplicate-free, and links the role to each
requested permission exactly once. -/
theorem assignPermissionsToRole_additive_idempotent :
    (∀ ctx roleId pids (db : DB) rp, rp ∈ db.rolePerms →
      rp ∈ (assignPermissionsToRole ctx roleId pids db).snd.rolePerms)
    ∧ (∀ (u : AuthUser) roleId pids (db : DB) ro,
      u.role = "SUPER_ADMIN" →
      db.roles.find? (fun r => r.id == roleId) = some ro →
      (db.permissions.map (fun q => q.id)).Nodup →
      pids.Nodup →
      (∀ x ∈ pids, x ∈ db.permissions.map (fun q => q.id)) →
      db.rolePerms.Nodup →
      (assignPermissionsToRole (some u) roleId pids
          (assignPermissionsToRole (some u) roleId pids db).snd).snd.rolePerms
        = (assignPermissionsToRole (some u) roleId pids db).snd.rolePerms
      ∧ (assignPermissionsToRole (some u) roleId pids db).snd.rolePerms.Nodup
      ∧ ∀ p ∈ pids,
          rolePermCount
            (assignPermissionsToRole (some u) roleId pids
              (assignPermissionsToRole (some u) roleId pids db).snd).snd
            roleId p = 1) := by
  constructor
  · intro ctx roleId pids db rp h
    rcases ctx with _ | u
    · exact h
    · cases hr : (u.role != "SUPER_ADMIN") with
      | true => simpa [assignPermissionsToRole, hr] using h
      | false =>
        rcases hf : db.roles.find? (fun r => r.id == roleId) with _ | ro
        · simpa [assignPermissionsToRole, hr, hf] using h
        · cases hv : ((permsMatching db pids).length != pids.length) with
          | true => simpa [assignPermissionsToRole, hr, hf, hv] using h
          | false =>
            simp only [assignPermissionsToRole, hr, Bool.false_eq_true,
              if_false, hf, hv]
            exact skipDup_preserves roleId pids db.rolePerms rp h
  · intro u roleId pids db ro hr hf hnd hpnd hall hrpnd
    have hrole : (u.role != "SUPER_ADMIN") = false := by simp [hr]
    have hlen1 : ((permsMatching db pids).length != pids.length) = false := by
      rw [bne_eq_false_iff_eq]
      exact permsMatching_length_eq_of_present db pids hnd hpnd hall
    have e1 : (assignPermissionsToRole (some u) roleId pids db).snd
        = { db with rolePerms :=
            rolePermCreateManySkipDup db.rolePerms roleId pids } := by
      simp only [assignPermissionsToRole, hrole, Bool.false_eq_true, if_false,
        hf, hlen1]
    have hnoop : rolePermCreateManySkipDup
        (rolePermCreateManySkipDup db.rolePerms roleId pids) roleId pids
        = rolePermCreateManySkipDup db.rolePerms roleId pids :=
      skipDup_noop roleId pids _
        (fun p hp => skipDup_mem roleId pids db.rolePerms p hp)
    have e2 : (assignPermissionsToRole (some u) roleId pids
        { db with rolePerms :=
            rolePermCreateManySkipDup db.rolePerms roleId pids }).snd
        = { db with rolePerms :=
            rolePermCreateManySkipDup db.rolePerms roleId pids } := by
      have hlen1' := hlen1
      simp only [permsMatching] at hlen1'
      simp only [assignPermissionsToRole, permsMatching, hrole,
        Bool.false_eq_true, if_false, hf, hlen1', hnoop]
    refine ⟨by rw [e1, e2], by rw [e1]; exact skipDup_nodup _ _ _ hrpnd, ?_⟩
    intro p hp
    rw [e1, e2]
    simp only [rolePermCount]
    exact pair_filter_length_one _ _ _ (skipDup_nodup _ _ _ hrpnd)
      (skipDup_mem roleId pids db.rolePerms p hp)

/-- A role with two stored permissions available for assignment. -/
def dbAssign : DB :=
  { roles := [⟨"r1", "HELPER", none⟩],
    permissions := [⟨"p1", "P1", none⟩, ⟨"p2", "P2", none⟩] }

/-- C7 witness: assigning two permissions twice on a concrete store keeps
one join row per permission and loses none. -/
theorem assignPermissionsToRole_witness :
    ((⟨"r1", "P0"⟩ : RolePermission)
        ∈ (assignPermissionsToRole (some ⟨"sa-1", "SUPER_ADMIN"⟩) "r1"
            ["p1", "p2"]
            { dbAssign with rolePerms := [⟨"r1", "P0"⟩] }).snd.rolePerms)
    ∧ ((assignPermissionsToRole (some ⟨"sa-1", "SUPER_ADMIN"⟩) "r1"
          ["p1", "p2"]
          (assignPermissionsToRole (some ⟨"sa-1", "SUPER_ADMIN"⟩) "r1"
            ["p1", "p2"] dbAssign).snd).snd.rolePerms
        = (assignPermissionsToRole (some ⟨"sa-1", "SUPER_ADMIN"⟩) "r1"
            ["p1", "p2"] dbAssign).snd.rolePerms
      ∧ (assignPermissionsToRole (some ⟨"sa-1", "SUPER_ADMIN"⟩) "r1"
          ["p1", "p2"] dbAssign).snd.rolePerms.Nodup
      ∧ ∀ p ∈ ["p1", "p2"],
          rolePermCount
            (assignPermissionsToRole (some ⟨"sa-1", "SUPER_ADMIN"⟩) "r1"
              ["p1", "p2"]
              (assignPermissionsToRole (some ⟨"sa-1", "SUPER_ADMIN"⟩) "r1"
                ["p1", "p2"] dbAssign).snd).snd "r1" p = 1) :=
  ⟨assignPermissionsToRole_additive_idempotent.1
      (some ⟨"sa-1", "SUPER_ADMIN"⟩) "r1" ["p1", "p2"]
      { dbAssign with rolePerms := [⟨"r1", "P0"⟩] } ⟨"r1", "P0"⟩
      (by decide),
    assignPermissionsToRole_additive_idempotent.2 ⟨"sa-1", "SUPER_ADMIN"⟩
      "r1" ["p1", "p2"] dbAssign ⟨"r1", "HELPER", none⟩ rfl (by decide)
      (by decide) (by decide) (by decide) (by decide)⟩

end AdminAuth
